import Mathlib

/-!
# ctcdecode: the CPU binding (`pytorch_ctc/src/cpu_binding.cpp`)

A shallow embedding of the two entry points of the binding layer, `ctc_beam_decode`
and `generate_trie`, together with the properties of the marshalling code around the
beam-search decoder.

Conventions of the embedding.

* A `float` is carried by its bit pattern; the binding only copies floats.
* `th_probs` and `th_seq_len` are reached in the source through raw pointer arithmetic
  (`THFloatTensor_data`, `THFloatTensor_storageOffset`, `THFloatTensor_stride`), so they
  are modelled at storage level: a storage, a storage offset, sizes and strides.  A
  pointer into a storage is the index of the cell it points to, counted from
  `storage->data`.
* `th_output`, `th_scores` and `th_out_len` are only written, and only through
  `THIntTensor_set3d`, `THIntTensor_set2d` and `THFloatTensor_set2d`; they are modelled
  by their logical cells.  The caller supplies buffers large enough for the indices
  written.
* The beam-search decoder, the language model, the label table, the trie and the
  UTF-8 conversion are collaborators of the binding; they enter as parameters.
-/

namespace pytorch

/-! ## Data model -/

/-- A C `float`, represented by its bit pattern.  The binding never computes on floats. -/
structure F32 where
  bits : Nat
deriving DecidableEq, Repr

/-- The literal `0.0`. -/
def F32.zero : F32 := ⟨0⟩

/-- The runtime selector of the decoder variant (declared in `cpu_binding.h`). -/
inductive DecodeType where
  | CTC
  | CTC_KENLM
deriving DecidableEq, Repr

/-- A `THFloatTensor` of dimension 3, at storage level.  `storage i` is the float at
`storage->data + i`. -/
structure THFloatTensor where
  storage : Int → F32
  storageOffset : Int
  size0 : Nat
  size1 : Nat
  size2 : Nat
  stride0 : Int
  stride1 : Int
  stride2 : Int

/-- A `THIntTensor` of dimension 1, at storage level. -/
structure THIntTensor1 where
  storage : Int → Int
  storageOffset : Int
  size0 : Nat
  stride0 : Int

/-- The logical element `[t][b][c]` of a strided tensor, as TH defines it
(`THFloatTensor_get3d`): the storage cell at
`storageOffset + t*stride[0] + b*stride[1] + c*stride[2]`. -/
def THFloatTensor_get3d (T : THFloatTensor) (t b c : Nat) : F32 :=
  T.storage (T.storageOffset + t * T.stride0 + b * T.stride1 + c * T.stride2)

/-- The logical element `[b]` of a one-dimensional strided tensor (`THIntTensor_get1d`). -/
def THIntTensor_get1d (T : THIntTensor1) (b : Nat) : Int :=
  T.storage (T.storageOffset + b * T.stride0)

/-- The function `THFloatTensor_data` of TH returns `storage->data + storageOffset`: the
address of the first logical element, not the base of the storage. -/
def THFloatTensor_data (T : THFloatTensor) : Int := T.storageOffset

/-- The function `THFloatTensor_storageOffset` of TH. -/
def THFloatTensor_storageOffset (T : THFloatTensor) : Int := T.storageOffset

/-- The function `THIntTensor_data` of TH returns `storage->data + storageOffset`. -/
def THIntTensor_data (T : THIntTensor1) : Int := T.storageOffset

/-- The function `THIntTensor_storageOffset` of TH. -/
def THIntTensor_storageOffset (T : THIntTensor1) : Int := T.storageOffset

/-- The logical cells of the two-dimensional `int` tensor `th_out_len`. -/
abbrev THIntTensor2 := Nat → Nat → Int

/-- The logical cells of the two-dimensional `float` tensor `th_scores`. -/
abbrev THFloatTensor2 := Nat → Nat → F32

/-- The three-dimensional `int` tensor `th_output`: its first size and its logical cells. -/
structure THIntTensor3 where
  size0 : Nat
  cell : Nat → Nat → Nat → Int

/-- The setter `THIntTensor_set2d(T, x0, x1, v)`. -/
def THIntTensor_set2d (T : THIntTensor2) (x0 x1 : Nat) (v : Int) : THIntTensor2 :=
  fun i j => if i = x0 ∧ j = x1 then v else T i j

/-- The setter `THFloatTensor_set2d(T, x0, x1, v)`. -/
def THFloatTensor_set2d (T : THFloatTensor2) (x0 x1 : Nat) (v : F32) : THFloatTensor2 :=
  fun i j => if i = x0 ∧ j = x1 then v else T i j

/-- The setter `THIntTensor_set3d(T, x0, x1, x2, v)`. -/
def THIntTensor_set3d (T : THIntTensor3) (x0 x1 x2 : Nat) (v : Int) : THIntTensor3 :=
  ⟨T.size0, fun i j k => if i = x0 ∧ j = x1 ∧ k = x2 then v else T.cell i j k⟩

/-- The view `Eigen::Map<const Eigen::ArrayXi>(data, size)`: `size` contiguous ints read
from memory `mem` at `data`. -/
structure ArrayXiMap where
  mem : Int → Int
  data : Int
  size : Nat

/-- Coefficient `i` of an array view. -/
def ArrayXiMap.coeff (a : ArrayXiMap) (i : Nat) : Int := a.mem (a.data + i)

/-- The view `Eigen::Map<Eigen::MatrixXf, 0, Eigen::Stride<Dynamic, Dynamic>>`
`(data, rows, cols, Stride(outer, inner))` over memory `mem`.  `Eigen::MatrixXf` is
column-major: coefficient `(i, j)` lives at `data + i*inner + j*outer`. -/
structure StridedMatrixMap where
  mem : Int → F32
  data : Int
  rows : Nat
  cols : Nat
  outer : Int
  inner : Int

/-- Coefficient `(i, j)` of a strided matrix view. -/
def StridedMatrixMap.coeff (m : StridedMatrixMap) (i j : Nat) : F32 :=
  m.mem (m.data + i * m.inner + j * m.outer)

/-- The view `Eigen::Map<Eigen::MatrixXf>(data, rows, cols)` laid over the local array
`score`: `mem k` is the float at `&score[0][0] + k`. -/
structure MatrixMap where
  mem : Nat → F32
  rows : Nat
  cols : Nat

/-- Linear index of coefficient `(i, j)` of a plain column-major `rows x cols` view. -/
def MatrixMap.index (m : MatrixMap) (i j : Nat) : Nat := i + j * m.rows

/-- Coefficient `(i, j)` of a plain matrix view. -/
def MatrixMap.coeff (m : MatrixMap) (i j : Nat) : F32 := m.mem (m.index i j)

/-- The type `ctc::CTCDecoder::Output`: one label sequence per batch element. -/
abbrev Output := List (List Int)

/-- What `Decode` leaves behind: its `Status`, the vector `outputs` it filled through the
pointer it was given, and the floats behind the `scores` view. -/
structure DecodeResult where
  ok : Bool
  outputs : List Output
  scores_mem : Nat → F32

/-- A `ctc::CTCBeamSearchDecoder<...>` as the binding uses it: `GetBeamWidth()` and
`Decode(seq_len, inputs, &outputs, scores)`. -/
structure CTCBeamSearchDecoder where
  GetBeamWidth : Nat
  Decode : ArrayXiMap → List StridedMatrixMap → List Output → MatrixMap → DecodeResult

/-- The three caller-owned output buffers. -/
structure OutBuffers where
  th_output : THIntTensor3
  th_scores : THFloatTensor2
  th_out_len : THIntTensor2

/-- Everything observable of one call of `ctc_beam_decode`: the returned `int`, the output
buffers after the call, and the result of `Decode` when `Decode` was invoked. -/
structure DecodeCall where
  ret : Int
  bufs : OutBuffers
  decoded : Option DecodeResult

/-! ## `ctc_beam_decode` -/

/-- Lines 146-148: the sequence-length view handed to `Decode`. -/
def seq_len_map (th_seq_len : THIntTensor1) (batch_size : Nat) : ArrayXiMap :=
  ⟨th_seq_len.storage, THIntTensor_data th_seq_len + THIntTensor_storageOffset th_seq_len,
    batch_size⟩

/-- Line 158: the view emplaced for timestep `t`. -/
def inputs_at (th_probs : THFloatTensor) (t : Nat) : StridedMatrixMap :=
  ⟨th_probs.storage,
    THFloatTensor_data th_probs + THFloatTensor_storageOffset th_probs + t * th_probs.stride0,
    th_probs.size1, th_probs.size2, th_probs.stride2, th_probs.stride1⟩

/-- Lines 156-159: the vector `inputs`, one view per timestep. -/
def inputs_of (th_probs : THFloatTensor) : List StridedMatrixMap :=
  (List.range th_probs.size0).map (inputs_at th_probs)

/-- Lines 163-166: `top_paths` outputs, each resized to `batch_size` empty sequences. -/
def outputs_init (top_paths batch_size : Nat) : List Output :=
  List.replicate top_paths (List.replicate batch_size [])

/-- Line 168: number of floats in `float score[batch_size][top_paths]`. -/
def score_len (batch_size top_paths : Nat) : Nat := batch_size * top_paths

/-- Lines 168, 176 and 187: the view over the zero-initialised array `score`, with
`batch_size` rows and `GetBeamWidth()` columns. -/
def scores_map (batch_size beam_width : Nat) : MatrixMap :=
  ⟨fun _ => F32.zero, batch_size, beam_width⟩

/-- The element `outputs[p][b]`. -/
def outputs_at (outputs : List Output) (p b : Nat) : List Int :=
  (outputs.getD p []).getD b []

/-- Lines 207-211: one iteration of the loop over `t`. -/
def assemble_t (p b : Nat) (p_batch : List Int) (sc : F32) (st : OutBuffers) (t : Nat) :
    OutBuffers :=
  ⟨THIntTensor_set3d st.th_output p b t (p_batch.getD t 0),
    THFloatTensor_set2d st.th_scores p b sc,
    st.th_out_len⟩

/-- Lines 201-212: one iteration of the loop over `b`. -/
def assemble_b (outputs : List Output) (scores : MatrixMap) (p : Nat) (st : OutBuffers)
    (b : Nat) : OutBuffers :=
  let p_batch := outputs_at outputs p b
  let num_decoded := p_batch.length
  let st1 : OutBuffers :=
    ⟨st.th_output, st.th_scores, THIntTensor_set2d st.th_out_len p b (num_decoded : Int)⟩
  (List.range num_decoded).foldl (assemble_t p b p_batch (scores.coeff b p)) st1

/-- Lines 198-213: one iteration of the loop over `p`. -/
def assemble_p (outputs : List Output) (scores : MatrixMap) (batch_size : Nat)
    (st : OutBuffers) (p : Nat) : OutBuffers :=
  (List.range batch_size).foldl (assemble_b outputs scores p) st

/-- Lines 197-213: result assembly. -/
def assemble (outputs : List Output) (scores : MatrixMap) (top_paths batch_size : Nat)
    (st : OutBuffers) : OutBuffers :=
  (List.range top_paths).foldl (assemble_p outputs scores batch_size) st

/-- Lines 175-180 and 186-191: the body shared by the two cases of the switch, followed
by lines 197-215 when `Decode` succeeds. -/
def decode_case (decoder : CTCBeamSearchDecoder) (th_probs : THFloatTensor)
    (th_seq_len : THIntTensor1) (bufs : OutBuffers) : DecodeCall :=
  let batch_size := th_probs.size1
  let top_paths := bufs.th_output.size0
  let scores := scores_map batch_size decoder.GetBeamWidth
  let r := decoder.Decode (seq_len_map th_seq_len batch_size) (inputs_of th_probs)
    (outputs_init top_paths batch_size) scores
  if r.ok then
    ⟨1, assemble r.outputs ⟨r.scores_mem, scores.rows, scores.cols⟩ top_paths batch_size bufs,
      some r⟩
  else
    ⟨0, bufs, some r⟩

/-- Lines 136-216.  `INCLUDE_KENLM` is the build configuration; `void_decoder` is the
decoder behind the `void*` handle.  When no case of the switch matches, control falls
to the assembly loop with `outputs` as initialised; there every `num_decoded` is 0, so
the unset pointer `scores` is never dereferenced. -/
def ctc_beam_decode (INCLUDE_KENLM : Bool) (void_decoder : CTCBeamSearchDecoder)
    (type : DecodeType) (th_probs : THFloatTensor) (th_seq_len : THIntTensor1)
    (th_output : THIntTensor3) (th_scores : THFloatTensor2) (th_out_len : THIntTensor2) :
    DecodeCall :=
  let batch_size := th_probs.size1
  let top_paths := th_output.size0
  let bufs : OutBuffers := ⟨th_output, th_scores, th_out_len⟩
  match type, INCLUDE_KENLM with
  | DecodeType.CTC, _ => decode_case void_decoder th_probs th_seq_len bufs
  | DecodeType.CTC_KENLM, true => decode_case void_decoder th_probs th_seq_len bufs
  | DecodeType.CTC_KENLM, false =>
    ⟨1, assemble (outputs_init top_paths batch_size) (scores_map batch_size 0)
      top_paths batch_size bufs, none⟩

/-- Whether `Decode` was invoked and returned an ok `Status`. -/
def DecodeCall.succeeded (c : DecodeCall) : Bool :=
  match c.decoded with
  | some r => r.ok
  | none => false

/-- Whether `Decode` was invoked and returned a non-ok `Status`. -/
def DecodeCall.failed (c : DecodeCall) : Bool :=
  match c.decoded with
  | some r => !r.ok
  | none => false

/-- The decoder's result for a batch element depends only on that element's
probabilities and length: take two invocations as the binding makes them (fresh
`outputs` for the same number of paths, a zeroed score view) that present the same
length and the same probability rows for elements `b` and `b'`, over the same number
of timesteps and classes.  When both return ok, they produce the same label sequences
and the same scores for `b` and `b'`. -/
def ElementLocal (D : CTCBeamSearchDecoder) : Prop :=
  ∀ (sl sl' : ArrayXiMap) (ins ins' : List StridedMatrixMap) (top_paths B B' b b' : Nat),
    b < B → b' < B' →
    ins.length = ins'.length →
    sl.coeff b = sl'.coeff b' →
    (∀ t (h : t < ins.length) (h' : t < ins'.length), ins[t].cols = ins'[t].cols ∧
      ∀ c, c < ins[t].cols → ins[t].coeff b c = ins'[t].coeff b' c) →
    (D.Decode sl ins (outputs_init top_paths B) (scores_map B D.GetBeamWidth)).ok = true →
    (D.Decode sl' ins' (outputs_init top_paths B') (scores_map B' D.GetBeamWidth)).ok = true →
    ∀ p, p < top_paths →
      outputs_at (D.Decode sl ins (outputs_init top_paths B)
          (scores_map B D.GetBeamWidth)).outputs p b =
        outputs_at (D.Decode sl' ins' (outputs_init top_paths B')
          (scores_map B' D.GetBeamWidth)).outputs p b' ∧
      (D.Decode sl ins (outputs_init top_paths B) (scores_map B D.GetBeamWidth)).scores_mem
          ((scores_map B D.GetBeamWidth).index b p) =
        (D.Decode sl' ins' (outputs_init top_paths B')
          (scores_map B' D.GetBeamWidth)).scores_mem
          ((scores_map B' D.GetBeamWidth).index b' p)

/-! ## `generate_trie` -/

/-- A `char` of a narrow string. -/
abbrev Byte := Nat

/-- A `wchar_t`. -/
abbrev WChar := Nat

/-- The type `lm::WordIndex`. -/
abbrev WordIndex := Nat

/-- The label table `ctc::Labels` (`ctc_labels.h`): the constructor arguments of line 221
and the two member functions the trie builder calls. -/
structure Labels where
  label_str : List WChar
  size : Int
  blank_index : Int
  space_index : Int
  GetSize : Nat
  GetLabel : WChar → Int

/-- The part of `lm::FullScoreReturn` that is read. -/
structure FullScoreReturn where
  prob : F32

/-- A loaded `lm::ngram::ProbingModel`, with context states of type `S`:
`GetVocabulary().Index(word)`, `NullContextState()` and `FullScore(in_state, word, out)`,
the latter returning its result together with the out-state. -/
structure Model (S : Type) where
  Index : List Byte → WordIndex
  NullContextState : S
  FullScore : S → WordIndex → FullScoreReturn × S

/-- Lines 26-30. -/
def GetWordIndex {S : Type} (model : Model S) (word : List Byte) : WordIndex :=
  model.Index word

/-- Lines 32-38. -/
def ScoreWord {S : Type} (model : Model S) (vocab : WordIndex) : F32 :=
  let in_state := model.NullContextState
  let full_score_return := (model.FullScore in_state vocab).1
  full_score_return.prob

/-- The arguments of one call of `TrieNode::Insert`. -/
structure InsertArgs where
  word : List WChar
  translator : WChar → Int
  lm_word : WordIndex
  unigram_score : F32

/-- The label sequence an insertion stands for: its word translated character by
character. -/
def InsertArgs.label_sequence (a : InsertArgs) : List Int := a.word.map a.translator

/-- The class `ctc::TrieNode` (`ctc_trie_node.h`) as the builder sees it: the vocabulary
size it was constructed with and the insertions it has received, oldest first. -/
structure TrieNode where
  vocab_size : Nat
  inserted : List InsertArgs

/-- The call `root.Insert(word, translator, lm_word, unigram_score)`. -/
def TrieNode.Insert (root : TrieNode) (word : List WChar) (translator : WChar → Int)
    (lm_word : WordIndex) (unigram_score : F32) : TrieNode :=
  ⟨root.vocab_size, root.inserted ++ [⟨word, translator, lm_word, unigram_score⟩]⟩

/-- The files the call can reach, by path: `content p` is what a stream opened on `p`
for reading yields (`none` when `p` cannot be opened for reading), and `writable p`
tells whether `std::ofstream::open` succeeds on `p`. -/
structure Files where
  content : String → Option (List Byte)
  writable : String → Bool

/-- The call `ofs.open(path)`: on success the file exists and is empty. -/
def Files.ofs_open (fs : Files) (path : String) : Files :=
  if fs.writable path then
    ⟨fun q => if q = path then some [] else fs.content q, fs.writable⟩
  else fs

/-- Output of `bytes` on the stream that `ofs.open(path)` opened; a stream that failed to
open drops it. -/
def Files.ofs_write (fs : Files) (path : String) (bytes : List Byte) : Files :=
  if fs.writable path then
    ⟨fun q => if q = path then some ((fs.content q).getD [] ++ bytes) else fs.content q,
      fs.writable⟩
  else fs

/-- Everything observable of one call of `generate_trie`: the returned `int` (`none` when
an exception of `utf8to16` leaves the function instead), the lines printed on
`std::cout`, the files afterwards, whether `ofs.open` was reached, the local trie `root`
at exit, and the trie passed to each call of `WriteToStream`. -/
structure TrieBuild where
  ret : Option Int
  cout : List String
  files : Files
  ofs_opened : Bool
  root : TrieNode
  serialized : List TrieNode

/-- The whitespace test of `operator>>` in the classic locale. -/
def isspace (c : Byte) : Bool := c = 32 || (9 ≤ c && c ≤ 13)

/-- The words that the loop `while (ifs >> word)` extracts from a stream holding `s`:
`cur` is the word being read, in reverse.  Whitespace ends the word in progress and is
otherwise skipped; the end of the stream ends the last word. -/
def vocab_words_from : List Byte → List Byte → List (List Byte)
  | [], cur => if cur.isEmpty then [] else [cur.reverse]
  | c :: cs, cur =>
    if isspace c then
      if cur.isEmpty then vocab_words_from cs [] else cur.reverse :: vocab_words_from cs []
    else vocab_words_from cs (c :: cur)

/-- The whitespace-delimited words of a file, in file order. -/
def vocab_words (s : List Byte) : List (List Byte) := vocab_words_from s []

/-- One extraction `ifs >> word` on a stream holding `s`: leading whitespace is skipped,
then characters are taken up to the next whitespace; the extraction fails when no
character is left.  Returns the word and the rest of the stream. -/
def extract_word (s : List Byte) : Option (List Byte × List Byte) :=
  let s1 := s.dropWhile isspace
  if s1.isEmpty then none
  else some (s1.takeWhile (fun c => !isspace c), s1.dropWhile (fun c => !isspace c))

/-- The C string `wide_word.c_str()` as the callee reads it: the units before the
first NUL. -/
def c_str (w : List WChar) : List WChar := w.takeWhile (fun c => c != 0)

/-- Lines 59-65: the body of the loop over the words.  `utf8to16 word` is `none` when the
conversion throws; the exception is not caught, so the body yields no trie then. -/
def insert_word {S : Type} (utf8to16 : List Byte → Option (List WChar)) (model : Model S)
    (labels : Labels) (root : TrieNode) (word : List Byte) : Option TrieNode :=
  let vocab := GetWordIndex model word
  let unigram_score := ScoreWord model vocab
  match utf8to16 word with
  | none => none
  | some wide_word =>
    some (root.Insert (c_str wide_word) (fun c => labels.GetLabel c) vocab unigram_score)

/-- Lines 58-66: the loop over the words that the stream yields.  Returns the trie when the
loop is left, and whether it was left by an exception. -/
def insert_words {S : Type} (utf8to16 : List Byte → Option (List WChar)) (model : Model S)
    (labels : Labels) : TrieNode → List (List Byte) → TrieNode × Bool
  | root, [] => (root, false)
  | root, word :: rest =>
    match insert_word utf8to16 model labels root word with
    | none => (root, true)
    | some root1 => insert_words utf8to16 model labels root1 rest

/-- What the input stream yields: the stream is opened on line 47 and first read on
line 58, after `ofs.open(trie_path)` on line 55, so it yields the content of the
vocabulary file once `ofs.open` has run. -/
def vocab_stream (fs : Files) (vocab_path trie_path : String) : List Byte :=
  ((fs.ofs_open trie_path).content vocab_path).getD []

/-- Lines 40-72.  `model` is the language model loaded from `kenlm_path`, `fs` holds the
files.  `utf8to16` is the conversion of the utfcpp library (`none` when it throws) and
`WriteToStream` gives the bytes that `TrieNode::WriteToStream` emits. -/
def generate_trie {S : Type} (utf8to16 : List Byte → Option (List WChar))
    (WriteToStream : TrieNode → List Byte) (labels : Labels) (model : Model S)
    (fs : Files) (vocab_path trie_path : String) : TrieBuild :=
  let root : TrieNode := ⟨labels.GetSize, []⟩
  match fs.content vocab_path with
  | none => ⟨some (-1), ["unable to open vocabulary"], fs, false, root, []⟩
  | some _ =>
    let fs1 := fs.ofs_open trie_path
    let ifs := vocab_stream fs vocab_path trie_path
    let res := insert_words utf8to16 model labels root (vocab_words ifs)
    if res.2 then ⟨none, [], fs1, true, res.1, []⟩
    else
      ⟨some 0, [], fs1.ofs_write trie_path (WriteToStream res.1), true, res.1, [res.1]⟩

/-- Whether every character of a wide word belongs to the configured alphabet. -/
def in_alphabet (labels : Labels) (w : List WChar) : Bool :=
  w.all (fun c => labels.label_str.contains c)

/-! ## Concrete inputs used by the examples -/

/-- A decoder of beam width 1 whose `Decode` reports failure. -/
def failing_decoder : CTCBeamSearchDecoder :=
  ⟨1, fun _ _ outs sc => ⟨false, outs, sc.mem⟩⟩

/-- A decoder of beam width 1 that succeeds with an empty label sequence for every
path and batch element and the score with bit pattern 5 in every cell. -/
def blank_decoder : CTCBeamSearchDecoder :=
  ⟨1, fun _ _ outs _ => ⟨true, outs, fun _ => ⟨5⟩⟩⟩

/-- A decoder of beam width 1 that succeeds; for batch element `b` it returns, on every
path, the one-label sequence holding the declared length of `b`, and as score the bit
pattern given by that length. -/
def length_echo_decoder : CTCBeamSearchDecoder :=
  ⟨1, fun sl _ outs sc =>
    ⟨true, outs.map (fun _ => (List.range sc.rows).map (fun b => [sl.coeff b])),
      fun k => ⟨(sl.coeff (k % sc.rows)).toNat⟩⟩⟩

/-- A probability tensor of size 1 x 1 x 1 viewed at storage offset 1, over a storage
whose cell `i` holds the bit pattern `i`. -/
def probs_offset_one : THFloatTensor :=
  ⟨fun i => ⟨i.toNat⟩, 1, 1, 1, 1, 1, 1, 1⟩

/-- A contiguous probability tensor of size 1 x 2 x 1 at storage offset 0, over a storage
whose cell `i` holds the bit pattern `i`. -/
def probs_pair : THFloatTensor :=
  ⟨fun i => ⟨i.toNat⟩, 0, 1, 2, 1, 2, 1, 1⟩

/-- A contiguous probability tensor of size 1 x 1 x 1 at storage offset 0 holding the
second sequence of `probs_pair`. -/
def probs_second : THFloatTensor :=
  ⟨fun i => ⟨(i + 1).toNat⟩, 0, 1, 1, 1, 1, 1, 1⟩

/-- The lengths `[3, 4]` of the two sequences of `probs_pair`: a view at storage offset 0
of a storage whose cell `i` holds `i + 3`. -/
def seq_len_pair : THIntTensor1 := ⟨fun i => i + 3, 0, 2, 1⟩

/-- The length `[4]` of the second sequence alone. -/
def seq_len_second : THIntTensor1 := ⟨fun i => i + 4, 0, 1, 1⟩

/-- An output tensor with `n` paths, zero everywhere. -/
def zero_output (n : Nat) : THIntTensor3 := ⟨n, fun _ _ _ => 0⟩

/-- A score tensor, zero everywhere. -/
def zero_scores : THFloatTensor2 := fun _ _ => F32.zero

/-- A length tensor, zero everywhere. -/
def zero_out_len : THIntTensor2 := fun _ _ => 0

/-- The sequence lengths of `seq_len_pair` narrowed to the second sequence: the same
storage, storage offset 1, size 1. -/
def seq_len_narrowed : THIntTensor1 := ⟨fun i => i + 3, 1, 1, 1⟩

/-- The tensor `probs_pair` narrowed to the second sequence: the same storage and
strides, storage offset 1, size 1 x 1 x 1. -/
def probs_narrowed : THFloatTensor :=
  ⟨fun i => ⟨i.toNat⟩, 1, 1, 1, 1, 2, 1, 1⟩

/-- A score tensor whose cell `[p][b]` holds the bit pattern `b + 1`. -/
def ramp_scores : THFloatTensor2 := fun _ b => ⟨b + 1⟩

/-- The conversion `utf8to16` on the words of the examples: a word of ASCII bytes, NUL
included, converts to the same units; any other word is rejected, as the library
rejects the byte `0xFF`, which no UTF-8 sequence holds. -/
def utf8to16_ascii (w : List Byte) : Option (List WChar) :=
  if w.all (fun c => c < 128) then some w else none

/-- The label table of the one-letter alphabet `a`, with unknown characters mapped
to -1. -/
def labels_a : Labels := ⟨[97], 1, 0, 0, 1, fun c => if c = 97 then 0 else -1⟩

/-- A language model that knows no word: every word has index 0 and score bits 0. -/
def model_empty : Model Unit := ⟨fun _ => 0, (), fun _ _ => (⟨F32.zero⟩, ())⟩

/-- A language model whose vocabulary index of a word is the word's length, whose null
context is 7, and whose score of index `v` in context `s` has the bit pattern
`100 * s + v`. -/
def model_length : Model Nat :=
  ⟨fun w => w.length, 7, fun s v => (⟨⟨100 * s + v⟩⟩, s + 1)⟩

/-- A serializer emitting one byte per insertion received. -/
def count_serializer (t : TrieNode) : List Byte := t.inserted.map (fun _ => 1)

/-- No file can be opened for reading; every path can be opened for writing. -/
def files_none : Files := ⟨fun _ => none, fun _ => true⟩

/-- One readable file, `vocab.txt`, holding `content`; every path can be opened for
writing. -/
def files_vocab (content : List Byte) : Files :=
  ⟨fun p => if p = "vocab.txt" then some content else none, fun _ => true⟩

/-! ## Result assembly: what the three loops leave in the buffers -/

theorem assemble_t_loop (p b : Nat) (p_batch : List Int) (sc : F32) (st : OutBuffers) (n : Nat) :
    let r := (List.range n).foldl (assemble_t p b p_batch sc) st
    r.th_out_len = st.th_out_len ∧
    r.th_output.size0 = st.th_output.size0 ∧
    (∀ i j, r.th_scores i j = if i = p ∧ j = b ∧ 0 < n then sc else st.th_scores i j) ∧
    (∀ i j k, r.th_output.cell i j k =
      if i = p ∧ j = b ∧ k < n then p_batch.getD k 0 else st.th_output.cell i j k) := by
  induction n with
  | zero => simp
  | succ n ih =>
    obtain ⟨h1, h2, h3, h4⟩ := ih
    simp only [List.range_succ, List.foldl_append, List.foldl_cons, List.foldl_nil]
    refine ⟨?_, ?_, ?_, ?_⟩
    · simpa [assemble_t] using h1
    · simpa [assemble_t, THIntTensor_set3d] using h2
    · intro i j
      simp only [assemble_t, THFloatTensor_set2d, h3 i j]
      by_cases hi : i = p <;> by_cases hj : j = b <;> simp [hi, hj]
    · intro i j k
      simp only [assemble_t, THIntTensor_set3d, h4 i j k]
      by_cases hi : i = p <;> by_cases hj : j = b <;> simp [hi, hj]
      by_cases hk : k = n
      · simp [hk]
      · have : k < n + 1 ↔ k < n := by omega
        simp [hk, this]

theorem assemble_b_loop (outputs : List Output) (scores : MatrixMap) (p : Nat)
    (st : OutBuffers) (n : Nat) :
    let r := (List.range n).foldl (assemble_b outputs scores p) st
    r.th_output.size0 = st.th_output.size0 ∧
    (∀ i j, r.th_out_len i j =
      if i = p ∧ j < n then ((outputs_at outputs p j).length : Int) else st.th_out_len i j) ∧
    (∀ i j, r.th_scores i j =
      if i = p ∧ j < n ∧ 0 < (outputs_at outputs p j).length then scores.coeff j p
      else st.th_scores i j) ∧
    (∀ i j k, r.th_output.cell i j k =
      if i = p ∧ j < n ∧ k < (outputs_at outputs p j).length
      then (outputs_at outputs p j).getD k 0 else st.th_output.cell i j k) := by
  induction n with
  | zero => simp
  | succ n ih =>
    obtain ⟨h0, h1, h2, h3⟩ := ih
    simp only [List.range_succ, List.foldl_append, List.foldl_cons, List.foldl_nil]
    generalize (List.range n).foldl (assemble_b outputs scores p) st = mid at h0 h1 h2 h3
    obtain ⟨g1, g0, g2, g3⟩ := assemble_t_loop p n (outputs_at outputs p n) (scores.coeff n p)
      ⟨mid.th_output, mid.th_scores,
        THIntTensor_set2d mid.th_out_len p n ((outputs_at outputs p n).length : Int)⟩
      (outputs_at outputs p n).length
    simp only at g0 g1 g2 g3
    refine ⟨?_, ?_, ?_, ?_⟩
    · simp only [assemble_b]; rw [g0]; exact h0
    · intro i j
      simp only [assemble_b]; rw [g1]
      simp only [THIntTensor_set2d, h1 i j]
      by_cases hi : i = p <;> by_cases hj : j = n <;> simp [hi, hj]
      have : j < n + 1 ↔ j < n := by omega
      simp [this]
    · intro i j
      simp only [assemble_b]; rw [g2 i j, h2 i j]
      by_cases hi : i = p <;> by_cases hj : j = n <;> simp [hi, hj]
      have : j < n + 1 ↔ j < n := by omega
      simp [this]
    · intro i j k
      simp only [assemble_b]; rw [g3 i j k, h3 i j k]
      by_cases hi : i = p <;> by_cases hj : j = n <;> simp [hi, hj]
      have : j < n + 1 ↔ j < n := by omega
      simp [this]

theorem assemble_p_loop (outputs : List Output) (scores : MatrixMap) (batch_size : Nat)
    (st : OutBuffers) (n : Nat) :
    let r := (List.range n).foldl (assemble_p outputs scores batch_size) st
    r.th_output.size0 = st.th_output.size0 ∧
    (∀ i j, r.th_out_len i j =
      if i < n ∧ j < batch_size then ((outputs_at outputs i j).length : Int)
      else st.th_out_len i j) ∧
    (∀ i j, r.th_scores i j =
      if i < n ∧ j < batch_size ∧ 0 < (outputs_at outputs i j).length then scores.coeff j i
      else st.th_scores i j) ∧
    (∀ i j k, r.th_output.cell i j k =
      if i < n ∧ j < batch_size ∧ k < (outputs_at outputs i j).length
      then (outputs_at outputs i j).getD k 0 else st.th_output.cell i j k) := by
  induction n with
  | zero => simp
  | succ n ih =>
    obtain ⟨h0, h1, h2, h3⟩ := ih
    simp only [List.range_succ, List.foldl_append, List.foldl_cons, List.foldl_nil]
    generalize (List.range n).foldl (assemble_p outputs scores batch_size) st = mid
      at h0 h1 h2 h3
    obtain ⟨g0, g1, g2, g3⟩ := assemble_b_loop outputs scores n mid batch_size
    refine ⟨?_, ?_, ?_, ?_⟩
    · simp only [assemble_p]; rw [g0]; exact h0
    · intro i j
      simp only [assemble_p]; rw [g1 i j, h1 i j]
      by_cases hi : i = n
      · subst hi; simp
      · have : i < n + 1 ↔ i < n := by omega
        simp [hi, this]
    · intro i j
      simp only [assemble_p]; rw [g2 i j, h2 i j]
      by_cases hi : i = n
      · subst hi; simp
      · have : i < n + 1 ↔ i < n := by omega
        simp [hi, this]
    · intro i j k
      simp only [assemble_p]; rw [g3 i j k, h3 i j k]
      by_cases hi : i = n
      · subst hi; simp
      · have : i < n + 1 ↔ i < n := by omega
        simp [hi, this]

theorem assemble_cells (outputs : List Output) (scores : MatrixMap) (top_paths batch_size : Nat)
    (st : OutBuffers) :
    (assemble outputs scores top_paths batch_size st).th_output.size0 = st.th_output.size0 ∧
    (∀ i j, (assemble outputs scores top_paths batch_size st).th_out_len i j =
      if i < top_paths ∧ j < batch_size then ((outputs_at outputs i j).length : Int)
      else st.th_out_len i j) ∧
    (∀ i j, (assemble outputs scores top_paths batch_size st).th_scores i j =
      if i < top_paths ∧ j < batch_size ∧ 0 < (outputs_at outputs i j).length
      then scores.coeff j i else st.th_scores i j) ∧
    (∀ i j k, (assemble outputs scores top_paths batch_size st).th_output.cell i j k =
      if i < top_paths ∧ j < batch_size ∧ k < (outputs_at outputs i j).length
      then (outputs_at outputs i j).getD k 0 else st.th_output.cell i j k) :=
  assemble_p_loop outputs scores batch_size st top_paths

/-! ## `ctc_beam_decode`: the call as a whole -/

/-- The result of `Decode` in a call that reached one of the two cases of the switch. -/
theorem decode_case_eq (D : CTCBeamSearchDecoder) (P : THFloatTensor) (L : THIntTensor1)
    (bufs : OutBuffers) :
    let r := D.Decode (seq_len_map L P.size1) (inputs_of P)
      (outputs_init bufs.th_output.size0 P.size1) (scores_map P.size1 D.GetBeamWidth)
    (decode_case D P L bufs).decoded = some r ∧
    (r.ok = true → (decode_case D P L bufs).ret = 1 ∧
      (decode_case D P L bufs).bufs =
        assemble r.outputs ⟨r.scores_mem, P.size1, D.GetBeamWidth⟩ bufs.th_output.size0
          P.size1 bufs) ∧
    (r.ok = false → (decode_case D P L bufs).ret = 0 ∧ (decode_case D P L bufs).bufs = bufs) := by
  intro r
  have hr : D.Decode (seq_len_map L P.size1) (inputs_of P)
      (outputs_init bufs.th_output.size0 P.size1) (scores_map P.size1 D.GetBeamWidth) = r := rfl
  unfold decode_case
  simp only [hr]
  cases h : r.ok <;> simp [scores_map]

/-- A call in which `Decode` ran went through `decode_case`. -/
theorem ctc_beam_decode_of_decoded (k : Bool) (D : CTCBeamSearchDecoder) (type : DecodeType)
    (P : THFloatTensor) (L : THIntTensor1) (O : THIntTensor3) (S : THFloatTensor2)
    (N : THIntTensor2) (h : (ctc_beam_decode k D type P L O S N).decoded ≠ none) :
    ctc_beam_decode k D type P L O S N = decode_case D P L ⟨O, S, N⟩ := by
  cases type <;> cases k <;> simp_all [ctc_beam_decode]

theorem succeeded_decoded (c : DecodeCall) (h : c.succeeded = true) :
    ∃ r, c.decoded = some r ∧ r.ok = true := by
  unfold DecodeCall.succeeded at h
  cases hd : c.decoded with
  | none => simp [hd] at h
  | some r => exact ⟨r, rfl, by simpa [hd] using h⟩

theorem failed_decoded (c : DecodeCall) (h : c.failed = true) :
    ∃ r, c.decoded = some r ∧ r.ok = false := by
  unfold DecodeCall.failed at h
  cases hd : c.decoded with
  | none => simp [hd] at h
  | some r => exact ⟨r, rfl, by simpa [hd] using h⟩

/-- What a successful call leaves behind: the decoder's result and the assembled buffers. -/
theorem ctc_beam_decode_succeeded (k : Bool) (D : CTCBeamSearchDecoder) (type : DecodeType)
    (P : THFloatTensor) (L : THIntTensor1) (O : THIntTensor3) (S : THFloatTensor2)
    (N : THIntTensor2) (r : DecodeResult)
    (hd : (ctc_beam_decode k D type P L O S N).decoded = some r) (hok : r.ok = true) :
    r = D.Decode (seq_len_map L P.size1) (inputs_of P) (outputs_init O.size0 P.size1)
      (scores_map P.size1 D.GetBeamWidth) ∧
    (ctc_beam_decode k D type P L O S N).ret = 1 ∧
    (ctc_beam_decode k D type P L O S N).bufs =
      assemble r.outputs ⟨r.scores_mem, P.size1, D.GetBeamWidth⟩ O.size0 P.size1 ⟨O, S, N⟩ := by
  have hne : (ctc_beam_decode k D type P L O S N).decoded ≠ none := by simp [hd]
  have he := ctc_beam_decode_of_decoded k D type P L O S N hne
  obtain ⟨g1, g2, _⟩ := decode_case_eq D P L ⟨O, S, N⟩
  rw [he] at hd ⊢
  rw [g1] at hd
  have hr := Option.some.inj hd
  subst hr
  exact ⟨rfl, g2 hok⟩

/-- C1: when `Decode` returns a non-ok `Status`, `ctc_beam_decode` returns 0 and the three
caller-owned output buffers `th_output`, `th_scores` and `th_out_len` are, after the
call, equal to what they were before it. -/
theorem ctc_beam_decode_failure_keeps_buffers (k : Bool) (D : CTCBeamSearchDecoder)
    (type : DecodeType) (P : THFloatTensor) (L : THIntTensor1) (O : THIntTensor3)
    (S : THFloatTensor2) (N : THIntTensor2)
    (h : (ctc_beam_decode k D type P L O S N).failed = true) :
    (ctc_beam_decode k D type P L O S N).ret = 0 ∧
    (ctc_beam_decode k D type P L O S N).bufs.th_output = O ∧
    (ctc_beam_decode k D type P L O S N).bufs.th_scores = S ∧
    (ctc_beam_decode k D type P L O S N).bufs.th_out_len = N := by
  obtain ⟨r, hd, hok⟩ := failed_decoded _ h
  have hne : (ctc_beam_decode k D type P L O S N).decoded ≠ none := by simp [hd]
  have he := ctc_beam_decode_of_decoded k D type P L O S N hne
  obtain ⟨g1, _, g3⟩ := decode_case_eq D P L ⟨O, S, N⟩
  rw [he] at hd ⊢
  rw [g1] at hd
  have hr := Option.some.inj hd
  rw [hr] at g3
  obtain ⟨e1, e2⟩ := g3 hok
  rw [e1, e2]
  exact ⟨rfl, rfl, rfl, rfl⟩

/-- The failure case at a concrete call: one path, two batch elements, a decoder whose
`Decode` reports failure, and zeroed output buffers. -/
theorem ctc_beam_decode_failure_keeps_buffers_witness :
    (ctc_beam_decode false failing_decoder DecodeType.CTC probs_pair seq_len_pair
        (zero_output 1) zero_scores zero_out_len).ret = 0 ∧
    (ctc_beam_decode false failing_decoder DecodeType.CTC probs_pair seq_len_pair
        (zero_output 1) zero_scores zero_out_len).bufs.th_output = zero_output 1 ∧
    (ctc_beam_decode false failing_decoder DecodeType.CTC probs_pair seq_len_pair
        (zero_output 1) zero_scores zero_out_len).bufs.th_scores = zero_scores ∧
    (ctc_beam_decode false failing_decoder DecodeType.CTC probs_pair seq_len_pair
        (zero_output 1) zero_scores zero_out_len).bufs.th_out_len = zero_out_len :=
  ctc_beam_decode_failure_keeps_buffers false failing_decoder DecodeType.CTC probs_pair
    seq_len_pair (zero_output 1) zero_scores zero_out_len (by rfl)

/-- C2: in a call where `Decode` returned ok with result `r`, `ctc_beam_decode` returns 1
and, for every path `p < top_paths` and batch element `b < batch_size`, the cell
`th_out_len[p][b]` holds the number of labels of `r.outputs[p][b]` and every cell
`th_output[p][b][t]` with `t` below that number holds the label `r.outputs[p][b][t]`. -/
theorem ctc_beam_decode_writes_labels (k : Bool) (D : CTCBeamSearchDecoder)
    (type : DecodeType) (P : THFloatTensor) (L : THIntTensor1) (O : THIntTensor3)
    (S : THFloatTensor2) (N : THIntTensor2) (r : DecodeResult)
    (hd : (ctc_beam_decode k D type P L O S N).decoded = some r) (hok : r.ok = true) :
    (ctc_beam_decode k D type P L O S N).ret = 1 ∧
    ∀ p b, p < O.size0 → b < P.size1 →
      (ctc_beam_decode k D type P L O S N).bufs.th_out_len p b =
        ((outputs_at r.outputs p b).length : Int) ∧
      ∀ t (ht : t < (outputs_at r.outputs p b).length),
        (ctc_beam_decode k D type P L O S N).bufs.th_output.cell p b t =
          (outputs_at r.outputs p b)[t] := by
  obtain ⟨_, hret, hb⟩ := ctc_beam_decode_succeeded k D type P L O S N r hd hok
  refine ⟨hret, ?_⟩
  intro p b hp hbb
  obtain ⟨_, h1, _, h3⟩ := assemble_cells r.outputs ⟨r.scores_mem, P.size1, D.GetBeamWidth⟩
    O.size0 P.size1 ⟨O, S, N⟩
  rw [hb]
  refine ⟨?_, ?_⟩
  · rw [h1 p b]; simp [hp, hbb]
  · intro t ht
    rw [h3 p b t]
    simp [hp, hbb, ht, List.getD_eq_getElem]

/-- The success case at a concrete call: the decoder echoes the declared lengths `[3, 4]`,
so path 0 of batch element 1 has length 1 and label 4. -/
theorem ctc_beam_decode_writes_labels_witness :
    (ctc_beam_decode false length_echo_decoder DecodeType.CTC probs_pair seq_len_pair
        (zero_output 1) zero_scores zero_out_len).ret = 1 ∧
    (ctc_beam_decode false length_echo_decoder DecodeType.CTC probs_pair seq_len_pair
        (zero_output 1) zero_scores zero_out_len).bufs.th_out_len 0 1 = 1 ∧
    (ctc_beam_decode false length_echo_decoder DecodeType.CTC probs_pair seq_len_pair
        (zero_output 1) zero_scores zero_out_len).bufs.th_output.cell 0 1 0 = 4 := by
  have h := ctc_beam_decode_writes_labels false length_echo_decoder DecodeType.CTC probs_pair
    seq_len_pair (zero_output 1) zero_scores zero_out_len
    (length_echo_decoder.Decode (seq_len_map seq_len_pair 2) (inputs_of probs_pair)
      (outputs_init 1 2) (scores_map 2 1)) rfl rfl
  refine ⟨h.1, ?_, ?_⟩
  · exact (h.2 0 1 (by decide) (by decide)).1.trans (by decide)
  · exact ((h.2 0 1 (by decide) (by decide)).2 0 (by decide)).trans (by decide)

/-- The score cell of a successful call: `th_scores[p][b]` holds the decoder's score for
path `p` of batch element `b` when the decoded sequence is not empty, and keeps its
previous content when it is empty. -/
theorem ctc_beam_decode_score_cell (k : Bool) (D : CTCBeamSearchDecoder)
    (type : DecodeType) (P : THFloatTensor) (L : THIntTensor1) (O : THIntTensor3)
    (S : THFloatTensor2) (N : THIntTensor2) (r : DecodeResult)
    (hd : (ctc_beam_decode k D type P L O S N).decoded = some r) (hok : r.ok = true)
    (p b : Nat) (hp : p < O.size0) (hb : b < P.size1) :
    (ctc_beam_decode k D type P L O S N).bufs.th_scores p b =
      if 0 < (outputs_at r.outputs p b).length
      then MatrixMap.coeff ⟨r.scores_mem, P.size1, D.GetBeamWidth⟩ b p else S p b := by
  obtain ⟨_, _, hbufs⟩ := ctc_beam_decode_succeeded k D type P L O S N r hd hok
  obtain ⟨_, _, h2, _⟩ := assemble_cells r.outputs ⟨r.scores_mem, P.size1, D.GetBeamWidth⟩
    O.size0 P.size1 ⟨O, S, N⟩
  rw [hbufs, h2 p b]
  simp [hp, hb]

/-- C3, at the failing input: one path, two batch elements, a decoder that succeeds with
empty label sequences and the score with bit pattern 5 in every cell, and a score
buffer holding zeros.  The call returns 1, the decoder's score for path 0 of batch
element 0 is 5, the written length is 0, and `th_scores[0][0]` still holds 0. -/
theorem ctc_beam_decode_empty_path_score_stale :
    (ctc_beam_decode false blank_decoder DecodeType.CTC probs_pair seq_len_pair
        (zero_output 1) zero_scores zero_out_len).succeeded = true ∧
    (ctc_beam_decode false blank_decoder DecodeType.CTC probs_pair seq_len_pair
        (zero_output 1) zero_scores zero_out_len).ret = 1 ∧
    (ctc_beam_decode false blank_decoder DecodeType.CTC probs_pair seq_len_pair
        (zero_output 1) zero_scores zero_out_len).decoded.map
      (fun r => MatrixMap.coeff ⟨r.scores_mem, 2, 1⟩ 0 0) = some ⟨5⟩ ∧
    (ctc_beam_decode false blank_decoder DecodeType.CTC probs_pair seq_len_pair
        (zero_output 1) zero_scores zero_out_len).bufs.th_out_len 0 0 = 0 ∧
    (ctc_beam_decode false blank_decoder DecodeType.CTC probs_pair seq_len_pair
        (zero_output 1) zero_scores zero_out_len).bufs.th_scores 0 0 = ⟨0⟩ := by
  refine ⟨by rfl, by rfl, by rfl, by rfl, by rfl⟩

/-! ## The views handed to `Decode` -/

/-- The cell that the decoder reads as `inputs[t](b, c)`: the storage offset is counted
twice. -/
theorem inputs_coeff (P : THFloatTensor) (t b c : Nat) (ht : t < P.size0) :
    (inputs_of P)[t]?.map (fun m => m.coeff b c) =
      some (P.storage (2 * P.storageOffset + t * P.stride0 + b * P.stride1 + c * P.stride2)) := by
  simp only [inputs_of, List.getElem?_map, List.getElem?_range ht, Option.map_some',
    StridedMatrixMap.coeff, inputs_at, THFloatTensor_data, THFloatTensor_storageOffset]
  congr 2
  ring

/-- With storage offset 0 the decoder reads the logical element `[t][b][c]`. -/
theorem inputs_coeff_offset_zero (P : THFloatTensor) (t b c : Nat) (ht : t < P.size0)
    (h0 : P.storageOffset = 0) :
    (inputs_of P)[t]?.map (fun m => m.coeff b c) = some (THFloatTensor_get3d P t b c) := by
  rw [inputs_coeff P t b c ht, THFloatTensor_get3d, h0]
  simp

/-- C4, at the failing input: a 1 x 1 x 1 probability tensor with unit strides and storage
offset 1 over the storage `i ↦ i`.  Its logical element `[0][0][0]` is storage cell 1,
but the decoder reads storage cell 2 as `inputs[0](0, 0)`. -/
theorem inputs_read_past_offset :
    THFloatTensor_get3d probs_offset_one 0 0 0 = probs_offset_one.storage 1 ∧
    (inputs_of probs_offset_one)[0]?.map (fun m => m.coeff 0 0) =
      some (probs_offset_one.storage 2) ∧
    (inputs_of probs_offset_one)[0]?.map (fun m => m.coeff 0 0) ≠
      some (THFloatTensor_get3d probs_offset_one 0 0 0) := by
  refine ⟨by rfl, by rfl, by decide⟩

/-- Every score cell read back during result assembly lies inside the array `score`. -/
theorem scores_read_in_bounds (batch_size top_paths beam_width b p : Nat)
    (hb : b < batch_size) (hp : p < top_paths) :
    (scores_map batch_size beam_width).index b p < score_len batch_size top_paths := by
  simp only [MatrixMap.index, scores_map, score_len]
  calc b + p * batch_size < batch_size + p * batch_size := by omega
    _ = (p + 1) * batch_size := by ring
    _ ≤ top_paths * batch_size := Nat.mul_le_mul_right _ hp
    _ = batch_size * top_paths := by ring

/-- A cell of the score view lies inside the array `score` exactly when its column is
below `top_paths`. -/
theorem scores_cell_in_bounds_iff (batch_size top_paths beam_width b j : Nat)
    (hb : b < batch_size) :
    (scores_map batch_size beam_width).index b j < score_len batch_size top_paths ↔
      j < top_paths := by
  constructor
  · intro h
    simp only [MatrixMap.index, scores_map, score_len] at h
    by_contra hj
    have hle : top_paths ≤ j := by omega
    have : batch_size * top_paths ≤ j * batch_size := by
      rw [Nat.mul_comm]; exact Nat.mul_le_mul_right _ hle
    omega
  · intro hj
    exact scores_read_in_bounds batch_size top_paths beam_width b j hb hj

/-- C9, at the failing input: batch size 1, one path, beam width 2.  The cell `(0, 1)` of
the 1 x 2 score view has linear index 1, and the array `score` holds 1 float, so the
cell lies outside it. -/
theorem scores_view_exceeds_buffer :
    (1 : Nat) ≤ 2 ∧
    (scores_map 1 2).rows = 1 ∧ (scores_map 1 2).cols = 2 ∧
    (scores_map 1 2).index 0 1 = 1 ∧ score_len 1 1 = 1 ∧
    ¬ ((scores_map 1 2).index 0 1 < score_len 1 1) := by
  decide

/-- C10: in a build without the language model, a call with `type = CTC_KENLM` returns 1
although no `Decode` was invoked, whatever the other arguments. -/
theorem ctc_beam_decode_unhandled_type_returns_one (D : CTCBeamSearchDecoder)
    (P : THFloatTensor) (L : THIntTensor1) (O : THIntTensor3) (S : THFloatTensor2)
    (N : THIntTensor2) :
    (ctc_beam_decode false D DecodeType.CTC_KENLM P L O S N).ret = 1 ∧
    (ctc_beam_decode false D DecodeType.CTC_KENLM P L O S N).decoded = none ∧
    (ctc_beam_decode false D DecodeType.CTC_KENLM P L O S N).succeeded = false := by
  refine ⟨rfl, rfl, rfl⟩

/-! ## `generate_trie` -/

theorem vocab_words_from_skip (s : List Byte) :
    vocab_words_from s [] = vocab_words_from (s.dropWhile isspace) [] := by
  induction s with
  | nil => rfl
  | cons c cs ih =>
    by_cases hc : isspace c = true
    · simp [vocab_words_from, List.dropWhile_cons, hc, ih]
    · simp [List.dropWhile_cons, hc]

theorem vocab_words_from_word (s cur : List Byte) (hcur : cur ≠ []) :
    vocab_words_from s cur =
      (cur.reverse ++ s.takeWhile (fun c => !isspace c)) ::
        vocab_words_from (s.dropWhile (fun c => !isspace c)) [] := by
  induction s generalizing cur with
  | nil => simp [vocab_words_from, hcur]
  | cons c cs ih =>
    by_cases hc : isspace c = true
    · simp [vocab_words_from, List.takeWhile_cons, List.dropWhile_cons, hc, hcur]
    · have hc2 : isspace c = false := by simpa using hc
      rw [vocab_words_from]
      simp only [hc2, Bool.false_eq_true, if_false]
      rw [ih (c :: cur) (by simp)]
      simp [List.takeWhile_cons, List.dropWhile_cons, hc2]

/-- The word list agrees with repeated extraction: the first word is what `ifs >> word`
yields, and the remaining words are those of the rest of the stream. -/
theorem vocab_words_extract (s : List Byte) :
    vocab_words s =
      match extract_word s with
      | none => []
      | some (w, rest) => w :: vocab_words rest := by
  unfold vocab_words extract_word
  rw [vocab_words_from_skip]
  cases hs : s.dropWhile isspace with
  | nil => simp [vocab_words_from]
  | cons c cs =>
    have hc : isspace c = false := by
      have := List.head_dropWhile_not isspace s (by simp [hs])
      simpa [hs] using this
    simp only [List.isEmpty_cons, Bool.false_eq_true, if_false]
    rw [vocab_words_from]
    simp only [hc, Bool.false_eq_true, if_false]
    rw [vocab_words_from_word cs [c] (by simp)]
    simp [List.takeWhile_cons, List.dropWhile_cons, hc]

theorem c_str_of_no_nul (w : List WChar) (h : ∀ x ∈ w, x ≠ 0) : c_str w = w := by
  unfold c_str
  rw [List.takeWhile_eq_self_iff]
  intro x hx
  simpa using h x hx

theorem insert_words_spec {S : Type} (utf8to16 : List Byte → Option (List WChar))
    (model : Model S) (labels : Labels) (ws : List (List Byte)) (root : TrieNode) :
    (insert_words utf8to16 model labels root ws).1.vocab_size = root.vocab_size ∧
    (insert_words utf8to16 model labels root ws).1.inserted =
      root.inserted ++ (ws.takeWhile (fun w => (utf8to16 w).isSome)).map (fun w =>
        ⟨c_str ((utf8to16 w).getD []), labels.GetLabel, model.Index w,
          (model.FullScore model.NullContextState (model.Index w)).1.prob⟩) ∧
    (insert_words utf8to16 model labels root ws).2 =
      !(ws.all (fun w => (utf8to16 w).isSome)) := by
  induction ws generalizing root with
  | nil => simp [insert_words]
  | cons w ws ih =>
    cases hw : utf8to16 w with
    | none => simp [insert_words, insert_word, hw, List.takeWhile_cons]
    | some wide =>
      obtain ⟨h1, h2, h3⟩ := ih (root.Insert (c_str wide) (fun c => labels.GetLabel c)
        (GetWordIndex model w) (ScoreWord model (GetWordIndex model w)))
      simp only [insert_words, insert_word, hw]
      refine ⟨by rw [h1]; rfl, ?_, ?_⟩
      · rw [h2]
        simp [TrieNode.Insert, List.takeWhile_cons, hw, GetWordIndex, ScoreWord]
      · rw [h3]
        simp [hw]

theorem vocab_stream_of_open (fs : Files) (vocab_path trie_path : String)
    (content : List Byte) (hopen : fs.content vocab_path = some content)
    (hfile : vocab_path ≠ trie_path ∨ fs.writable trie_path = false) :
    vocab_stream fs vocab_path trie_path = content := by
  unfold vocab_stream Files.ofs_open
  rcases hfile with h | h
  · by_cases hw : fs.writable trie_path = true <;> simp [hw, h, hopen]
  · simp [h, hopen]

/-- The trie and the files that a call leaves behind once the vocabulary file has
opened, according to whether the loop ended by an exception. -/
theorem generate_trie_of_open {S : Type} (utf8to16 : List Byte → Option (List WChar))
    (WriteToStream : TrieNode → List Byte) (labels : Labels) (model : Model S)
    (fs : Files) (vocab_path trie_path : String) (content : List Byte)
    (hopen : fs.content vocab_path = some content) :
    (generate_trie utf8to16 WriteToStream labels model fs vocab_path trie_path).root =
      (insert_words utf8to16 model labels ⟨labels.GetSize, []⟩
        (vocab_words (vocab_stream fs vocab_path trie_path))).1 ∧
    ((insert_words utf8to16 model labels ⟨labels.GetSize, []⟩
        (vocab_words (vocab_stream fs vocab_path trie_path))).2 = false →
      (generate_trie utf8to16 WriteToStream labels model fs vocab_path trie_path).ret =
        some 0 ∧
      (generate_trie utf8to16 WriteToStream labels model fs vocab_path
        trie_path).serialized =
        [(generate_trie utf8to16 WriteToStream labels model fs vocab_path trie_path).root] ∧
      (generate_trie utf8to16 WriteToStream labels model fs vocab_path trie_path).files =
        (fs.ofs_open trie_path).ofs_write trie_path (WriteToStream
          (generate_trie utf8to16 WriteToStream labels model fs vocab_path
            trie_path).root)) := by
  unfold generate_trie
  simp only [hopen]
  cases h : (insert_words utf8to16 model labels ⟨labels.GetSize, []⟩
      (vocab_words (vocab_stream fs vocab_path trie_path))).2 <;> simp

/-- C5: when the vocabulary file cannot be opened, `generate_trie` returns -1, the trie has
received no insertion, `WriteToStream` was never called, `ofs.open(trie_path)` was not
reached, and every file, the one at `trie_path` among them, is what it was before the
call. -/
theorem generate_trie_vocab_unopened {S : Type} (utf8to16 : List Byte → Option (List WChar))
    (WriteToStream : TrieNode → List Byte) (labels : Labels) (model : Model S)
    (fs : Files) (vocab_path trie_path : String) (hclosed : fs.content vocab_path = none) :
    (generate_trie utf8to16 WriteToStream labels model fs vocab_path trie_path).ret = some (-1) ∧
    (generate_trie utf8to16 WriteToStream labels model fs vocab_path trie_path).root.inserted = [] ∧
    (generate_trie utf8to16 WriteToStream labels model fs vocab_path trie_path).serialized = [] ∧
    (generate_trie utf8to16 WriteToStream labels model fs vocab_path trie_path).ofs_opened = false ∧
    (generate_trie utf8to16 WriteToStream labels model fs vocab_path trie_path).files = fs ∧
    (generate_trie utf8to16 WriteToStream labels model fs vocab_path trie_path).files.content trie_path = fs.content trie_path := by
  simp [generate_trie, hclosed]

/-- The early return at a concrete call: no file can be opened for reading. -/
theorem generate_trie_vocab_unopened_witness :
    (generate_trie utf8to16_ascii count_serializer labels_a model_length files_none
        "vocab.txt" "trie.bin").ret = some (-1) ∧
    (generate_trie utf8to16_ascii count_serializer labels_a model_length files_none
        "vocab.txt" "trie.bin").ofs_opened = false ∧
    (generate_trie utf8to16_ascii count_serializer labels_a model_length files_none
        "vocab.txt" "trie.bin").files = files_none :=
  have h := generate_trie_vocab_unopened utf8to16_ascii count_serializer labels_a
    model_length files_none "vocab.txt" "trie.bin" rfl
  ⟨h.1, h.2.2.2.1, h.2.2.2.2.1⟩

/-- C6, refuted at three calls, each with the vocabulary at `vocab.txt`, the alphabet `a`,
and the language model `model_length`.
(1) The file holds the single word `a NUL b`: the call returns 0 and makes one insertion,
with vocabulary index 3 and score bits 703, but the word handed to `Insert` is `a`, whose
label sequence is `[0]`; the whole word translated is `[0, -1, -1]`.
(2) The file holds the single word `0xFF`: the conversion throws, no insertion and no
serialization is made, and the call does not return 0.
(3) The file holds the word `a` and `trie_path` is `vocab.txt` too: the file has one
word, the call returns 0, and the trie receives no insertion. -/
theorem generate_trie_insertion_differs :
    (vocab_words [97, 0, 98] = [[97, 0, 98]] ∧
      utf8to16_ascii [97, 0, 98] = some [97, 0, 98] ∧
      (generate_trie utf8to16_ascii count_serializer labels_a model_length
        (files_vocab [97, 0, 98]) "vocab.txt" "trie.bin").ret = some 0 ∧
      (generate_trie utf8to16_ascii count_serializer labels_a model_length
        (files_vocab [97, 0, 98]) "vocab.txt" "trie.bin").root.inserted.map
          InsertArgs.lm_word = [3] ∧
      (generate_trie utf8to16_ascii count_serializer labels_a model_length
        (files_vocab [97, 0, 98]) "vocab.txt" "trie.bin").root.inserted.map
          InsertArgs.unigram_score = [⟨703⟩] ∧
      (generate_trie utf8to16_ascii count_serializer labels_a model_length
        (files_vocab [97, 0, 98]) "vocab.txt" "trie.bin").root.inserted.map
          InsertArgs.word = [[97]] ∧
      (generate_trie utf8to16_ascii count_serializer labels_a model_length
        (files_vocab [97, 0, 98]) "vocab.txt" "trie.bin").root.inserted.map
          InsertArgs.label_sequence = [[0]] ∧
      [97, 0, 98].map labels_a.GetLabel = [0, -1, -1]) ∧
    (vocab_words [255] = [[255]] ∧
      utf8to16_ascii [255] = none ∧
      (generate_trie utf8to16_ascii count_serializer labels_a model_length
        (files_vocab [255]) "vocab.txt" "trie.bin").ret = none ∧
      (generate_trie utf8to16_ascii count_serializer labels_a model_length
        (files_vocab [255]) "vocab.txt" "trie.bin").root.inserted.length = 0 ∧
      (generate_trie utf8to16_ascii count_serializer labels_a model_length
        (files_vocab [255]) "vocab.txt" "trie.bin").serialized.length = 0) ∧
    (vocab_words [97] = [[97]] ∧
      (generate_trie utf8to16_ascii count_serializer labels_a model_length
        (files_vocab [97]) "vocab.txt" "vocab.txt").ret = some 0 ∧
      (generate_trie utf8to16_ascii count_serializer labels_a model_length
        (files_vocab [97]) "vocab.txt" "vocab.txt").root.inserted.length = 0) := by
  decide

/-- C6, amended: let the vocabulary file open with words `w_1 .. w_n`, all of which
`utf8to16` converts, and let `ofs.open(trie_path)` not empty it (`trie_path` names
another file, or cannot be opened for writing).  Then the trie receives exactly `n`
insertions, in file order; the `i`-th carries the wide form of `w_i` up to its first NUL
with the label table as translator (so it stands for those characters translated one by
one), the vocabulary index `Index(w_i)` and the probability of
`FullScore(NullContextState(), Index(w_i))`.  The trie holding all of them is passed to
`WriteToStream` exactly once, its bytes go to the stream opened on `trie_path`, and the
call returns 0. -/
theorem generate_trie_inserts_in_order {S : Type}
    (utf8to16 : List Byte → Option (List WChar))
    (WriteToStream : TrieNode → List Byte) (labels : Labels) (model : Model S)
    (fs : Files) (vocab_path trie_path : String) (content : List Byte)
    (hopen : fs.content vocab_path = some content)
    (hfile : vocab_path ≠ trie_path ∨ fs.writable trie_path = false)
    (hconv : ∀ w ∈ vocab_words content, (utf8to16 w).isSome = true) :
    (generate_trie utf8to16 WriteToStream labels model fs vocab_path trie_path).ret = some 0 ∧
    (generate_trie utf8to16 WriteToStream labels model fs vocab_path trie_path).root.inserted =
      (vocab_words content).map (fun w =>
        ⟨c_str ((utf8to16 w).getD []), labels.GetLabel, model.Index w,
          (model.FullScore model.NullContextState (model.Index w)).1.prob⟩) ∧
    (generate_trie utf8to16 WriteToStream labels model fs vocab_path trie_path).root.inserted.length = (vocab_words content).length ∧
    (generate_trie utf8to16 WriteToStream labels model fs vocab_path trie_path).root.inserted.map InsertArgs.label_sequence =
      (vocab_words content).map (fun w =>
        (c_str ((utf8to16 w).getD [])).map labels.GetLabel) ∧
    (generate_trie utf8to16 WriteToStream labels model fs vocab_path trie_path).serialized = [(generate_trie utf8to16 WriteToStream labels model fs vocab_path trie_path).root] ∧
    (generate_trie utf8to16 WriteToStream labels model fs vocab_path trie_path).files = (fs.ofs_open trie_path).ofs_write trie_path (WriteToStream (generate_trie utf8to16 WriteToStream labels model fs vocab_path trie_path).root) := by
  obtain ⟨hroot, hrest⟩ := generate_trie_of_open utf8to16 WriteToStream labels model fs
    vocab_path trie_path content hopen
  obtain ⟨_, hins, hthrown⟩ := insert_words_spec utf8to16 model labels
    (vocab_words (vocab_stream fs vocab_path trie_path)) ⟨labels.GetSize, []⟩
  have hstream := vocab_stream_of_open fs vocab_path trie_path content hopen hfile
  rw [hstream] at hroot hrest hins hthrown
  have hall : (vocab_words content).all (fun w => (utf8to16 w).isSome) = true := by
    rw [List.all_eq_true]; exact hconv
  have htake : (vocab_words content).takeWhile (fun w => (utf8to16 w).isSome) =
      vocab_words content := by
    rw [List.takeWhile_eq_self_iff]; exact hconv
  rw [hall] at hthrown
  rw [htake, List.nil_append] at hins
  obtain ⟨hret, hser, hfiles⟩ := hrest (by simpa using hthrown)
  rw [← hroot] at hins
  refine ⟨hret, hins, ?_, ?_, hser, hfiles⟩
  · rw [hins, List.length_map]
  · rw [hins, List.map_map]
    rfl

/-- The insertions at a concrete call: the vocabulary `a b` at `vocab.txt`, the trie
written to `trie.bin`. -/
theorem generate_trie_inserts_in_order_witness :
    (generate_trie utf8to16_ascii count_serializer labels_a model_length
        (files_vocab [97, 32, 98]) "vocab.txt" "trie.bin").ret = some 0 ∧
    (generate_trie utf8to16_ascii count_serializer labels_a model_length
        (files_vocab [97, 32, 98]) "vocab.txt" "trie.bin").root.inserted.length = 2 ∧
    (generate_trie utf8to16_ascii count_serializer labels_a model_length
        (files_vocab [97, 32, 98]) "vocab.txt" "trie.bin").root.inserted.map
          InsertArgs.label_sequence = [[0], [-1]] := by
  have h := generate_trie_inserts_in_order utf8to16_ascii count_serializer labels_a
    model_length (files_vocab [97, 32, 98]) "vocab.txt" "trie.bin" [97, 32, 98] rfl
    (Or.inl (by decide)) (by decide)
  exact ⟨h.1, h.2.2.1.trans (by decide), h.2.2.2.1.trans (by decide)⟩

/-- C7, refuted: with the alphabet `a` and a vocabulary file holding the single word `b`,
the word `b` is inserted although its character is outside the alphabet; the inserted
words are not the words whose characters all belong to the alphabet. -/
theorem generate_trie_inserts_foreign_word :
    in_alphabet labels_a [98] = false ∧
    vocab_words [98, 10] = [[98]] ∧
    utf8to16_ascii [98] = some [98] ∧
    (generate_trie utf8to16_ascii count_serializer labels_a model_empty
        (files_vocab [98, 10]) "vocab.txt" "trie.bin").root.inserted.map
          InsertArgs.word = [[98]] ∧
    (generate_trie utf8to16_ascii count_serializer labels_a model_empty
        (files_vocab [98, 10]) "vocab.txt" "trie.bin").root.inserted.map
          InsertArgs.word ≠
      ((vocab_words [98, 10]).filterMap utf8to16_ascii).filter (in_alphabet labels_a) := by
  decide

/-- C7, amended: when the vocabulary file opens, `generate_trie` makes no alphabet test.
Every word the input stream yields is handed to `Insert`, as a C string (its wide form
up to the first NUL) and with the label table as translator, in file order, until the
stream ends or `utf8to16` rejects a word, whether or not the word's characters belong
to the alphabet. -/
theorem generate_trie_inserts_all_words {S : Type}
    (utf8to16 : List Byte → Option (List WChar))
    (WriteToStream : TrieNode → List Byte) (labels : Labels) (model : Model S)
    (fs : Files) (vocab_path trie_path : String) (content : List Byte)
    (hopen : fs.content vocab_path = some content) :
    (generate_trie utf8to16 WriteToStream labels model fs vocab_path trie_path).root.inserted.map InsertArgs.word =
      ((vocab_words (vocab_stream fs vocab_path trie_path)).takeWhile
        (fun w => (utf8to16 w).isSome)).map (fun w => c_str ((utf8to16 w).getD [])) ∧
    ∀ a ∈ (generate_trie utf8to16 WriteToStream labels model fs vocab_path trie_path).root.inserted, a.translator = labels.GetLabel := by
  obtain ⟨hroot, _⟩ := generate_trie_of_open utf8to16 WriteToStream labels model fs
    vocab_path trie_path content hopen
  obtain ⟨_, hins, _⟩ := insert_words_spec utf8to16 model labels
    (vocab_words (vocab_stream fs vocab_path trie_path)) ⟨labels.GetSize, []⟩
  rw [List.nil_append, ← hroot] at hins
  rw [hins]
  refine ⟨?_, ?_⟩
  · rw [List.map_map]; rfl
  · intro a ha
    obtain ⟨w, _, hw⟩ := List.mem_map.mp ha
    rw [← hw]

/-- Every word inserted at a concrete call: the vocabulary `b a`, whose first word is
outside the alphabet `a`. -/
theorem generate_trie_inserts_all_words_witness :
    (generate_trie utf8to16_ascii count_serializer labels_a model_empty
        (files_vocab [98, 32, 97]) "vocab.txt" "trie.bin").root.inserted.map
          InsertArgs.word = [[98], [97]] :=
  (generate_trie_inserts_all_words utf8to16_ascii count_serializer labels_a model_empty
    (files_vocab [98, 32, 97]) "vocab.txt" "trie.bin" [98, 32, 97] rfl).1.trans (by decide)

/-! ## Batch independence -/

theorem outputs_at_init (top_paths batch_size p b : Nat) :
    outputs_at (outputs_init top_paths batch_size) p b = [] := by
  unfold outputs_at outputs_init
  by_cases hp : p < top_paths
  · by_cases hb : b < batch_size
    · simp [List.getD_eq_getElem?_getD, List.getElem?_replicate, hp, hb]
    · simp [List.getD_eq_getElem?_getD, List.getElem?_replicate, hp, hb]
  · simp [List.getD_eq_getElem?_getD, List.getElem?_replicate, hp]

/-- The decoder `length_echo_decoder` treats batch elements independently. -/
theorem length_echo_decoder_local : ElementLocal length_echo_decoder := by
  intro sl sl' ins ins' n B B' b b' hb hb' _ hsl _ _ _ p hp
  refine ⟨?_, ?_⟩
  · simp [length_echo_decoder, outputs_at, outputs_init, scores_map,
      List.getD_eq_getElem?_getD, hp, hb, hb', List.getElem?_range, hsl]
  · have h1 : (b + p * B) % B = b := by
      rw [Nat.add_mul_mod_self_right]; exact Nat.mod_eq_of_lt hb
    have h2 : (b' + p * B') % B' = b' := by
      rw [Nat.add_mul_mod_self_right]; exact Nat.mod_eq_of_lt hb'
    simp [length_echo_decoder, MatrixMap.index, scores_map, h1, h2, hsl]

/-- The decoder `blank_decoder` treats batch elements independently. -/
theorem blank_decoder_local : ElementLocal blank_decoder := by
  intro sl sl' ins ins' n B B' b b' _ _ _ _ _ _ _ p _
  refine ⟨?_, rfl⟩
  simp only [blank_decoder]
  rw [outputs_at_init, outputs_at_init]

/-- Batch independence on the views handed to `Decode`: when the single call presents to
the decoder, as its element 0, the length and the probabilities that the batch call
presents as element `b`, and its score cells `[p][0]` start as the cells `[p][b]` of the
batch call, the two calls leave the same lengths, scores and labels for that element. -/
theorem batch_independent_on_views (k : Bool) (D : CTCBeamSearchDecoder)
    (type : DecodeType) (hD : ElementLocal D)
    (P P1 : THFloatTensor) (L L1 : THIntTensor1) (O O1 : THIntTensor3)
    (S S1 : THFloatTensor2) (N N1 : THIntTensor2) (b : Nat) (hb : b < 2)
    (hbatch : P.size1 = 2) (hsingle : P1.size1 = 1)
    (htime : P1.size0 = P.size0) (hclasses : P1.size2 = P.size2)
    (hpaths : O1.size0 = O.size0)
    (hlen : (seq_len_map L1 1).coeff 0 = (seq_len_map L 2).coeff b)
    (hprobs : ∀ t c, t < P.size0 → c < P.size2 →
      (inputs_at P1 t).coeff 0 c = (inputs_at P t).coeff b c)
    (hinit : ∀ p, p < O.size0 → S1 p 0 = S p b)
    (hok : (ctc_beam_decode k D type P L O S N).succeeded = true)
    (hok1 : (ctc_beam_decode k D type P1 L1 O1 S1 N1).succeeded = true) :
    ∀ p, p < O.size0 →
      (ctc_beam_decode k D type P L O S N).bufs.th_out_len p b =
        (ctc_beam_decode k D type P1 L1 O1 S1 N1).bufs.th_out_len p 0 ∧
      (ctc_beam_decode k D type P L O S N).bufs.th_scores p b =
        (ctc_beam_decode k D type P1 L1 O1 S1 N1).bufs.th_scores p 0 ∧
      ∀ t : Nat, (t : Int) < (ctc_beam_decode k D type P L O S N).bufs.th_out_len p b →
        (ctc_beam_decode k D type P L O S N).bufs.th_output.cell p b t =
          (ctc_beam_decode k D type P1 L1 O1 S1 N1).bufs.th_output.cell p 0 t := by
  obtain ⟨r, hd, rok⟩ := succeeded_decoded _ hok
  obtain ⟨r1, hd1, rok1⟩ := succeeded_decoded _ hok1
  obtain ⟨hr, _, hbufs⟩ := ctc_beam_decode_succeeded k D type P L O S N r hd rok
  obtain ⟨hr1, _, hbufs1⟩ := ctc_beam_decode_succeeded k D type P1 L1 O1 S1 N1 r1 hd1 rok1
  rw [hpaths] at hr1
  have hb2 : b < P.size1 := by rw [hbatch]; exact hb
  have h01 : 0 < P1.size1 := by rw [hsingle]; exact Nat.one_pos
  have key := hD (seq_len_map L P.size1) (seq_len_map L1 P1.size1) (inputs_of P)
    (inputs_of P1) O.size0 P.size1 P1.size1 b 0 hb2 h01
    (by simp [inputs_of, htime])
    (by rw [hbatch, hsingle]; exact hlen.symm)
    (by
      intro t h h'
      have ht : t < P.size0 := by simpa [inputs_of] using h
      simp only [inputs_of, List.getElem_map, List.getElem_range]
      refine ⟨by simp [inputs_at, hclasses], ?_⟩
      intro c hc
      exact (hprobs t c ht (by simpa [inputs_at] using hc)).symm)
    (by rw [← hr]; exact rok) (by rw [← hr1]; exact rok1)
  intro p hp
  obtain ⟨e1, e2⟩ := key p hp
  rw [← hr, ← hr1] at e1 e2
  obtain ⟨_, a1, a2, a3⟩ := assemble_cells r.outputs ⟨r.scores_mem, P.size1, D.GetBeamWidth⟩
    O.size0 P.size1 ⟨O, S, N⟩
  obtain ⟨_, c1, c2, c3⟩ := assemble_cells r1.outputs
    ⟨r1.scores_mem, P1.size1, D.GetBeamWidth⟩ O1.size0 P1.size1 ⟨O1, S1, N1⟩
  have hp1 : p < O1.size0 := by rw [hpaths]; exact hp
  rw [hbufs, hbufs1]
  refine ⟨?_, ?_, ?_⟩
  · rw [a1 p b, c1 p 0]
    simp [hp, hb2, h01, hp1, e1]
  · rw [a2 p b, c2 p 0]
    simp only [hp, hb2, h01, hp1, e1, true_and, MatrixMap.coeff, MatrixMap.index]
    simp only [scores_map, MatrixMap.index] at e2
    rw [e2]
    simp only [hinit p hp]
  · intro t ht
    rw [a1 p b] at ht
    simp only [hp, hb2, and_self, if_true] at ht
    have ht2 : t < (outputs_at r.outputs p b).length := by exact_mod_cast ht
    rw [a3 p b t, c3 p 0 t]
    simp [hp, hb2, h01, hp1, ← e1, ht2]

/-- C8, at the failing input: the batch `probs_pair` with lengths `[3, 4]`, and its second
sequence alone, passed as the narrowed views `probs_narrowed` and `seq_len_narrowed`
(same storages, storage offset 1); one path, zeroed output buffers in both calls, and
the decoder `length_echo_decoder`, whose result for an element depends only on that
element.  The single-sequence tensors hold the length and the probability of batch
element 1, and both calls succeed; the batch call writes label 4 and score bits 4 for
element 1, the single call writes label 5 and score bits 5. -/
theorem ctc_beam_decode_narrowed_view_differs :
    ElementLocal length_echo_decoder ∧
    THIntTensor_get1d seq_len_narrowed 0 = THIntTensor_get1d seq_len_pair 1 ∧
    THFloatTensor_get3d probs_narrowed 0 0 0 = THFloatTensor_get3d probs_pair 0 1 0 ∧
    (ctc_beam_decode false length_echo_decoder DecodeType.CTC probs_pair seq_len_pair
        (zero_output 1) zero_scores zero_out_len).succeeded = true ∧
    (ctc_beam_decode false length_echo_decoder DecodeType.CTC probs_narrowed seq_len_narrowed
        (zero_output 1) zero_scores zero_out_len).succeeded = true ∧
    (ctc_beam_decode false length_echo_decoder DecodeType.CTC probs_pair seq_len_pair
        (zero_output 1) zero_scores zero_out_len).bufs.th_out_len 0 1 = 1 ∧
    (ctc_beam_decode false length_echo_decoder DecodeType.CTC probs_narrowed seq_len_narrowed
        (zero_output 1) zero_scores zero_out_len).bufs.th_out_len 0 0 = 1 ∧
    (ctc_beam_decode false length_echo_decoder DecodeType.CTC probs_pair seq_len_pair
        (zero_output 1) zero_scores zero_out_len).bufs.th_output.cell 0 1 0 = 4 ∧
    (ctc_beam_decode false length_echo_decoder DecodeType.CTC probs_narrowed seq_len_narrowed
        (zero_output 1) zero_scores zero_out_len).bufs.th_output.cell 0 0 0 = 5 ∧
    (ctc_beam_decode false length_echo_decoder DecodeType.CTC probs_pair seq_len_pair
        (zero_output 1) zero_scores zero_out_len).bufs.th_scores 0 1 = ⟨4⟩ ∧
    (ctc_beam_decode false length_echo_decoder DecodeType.CTC probs_narrowed seq_len_narrowed
        (zero_output 1) zero_scores zero_out_len).bufs.th_scores 0 0 = ⟨5⟩ := by
  refine ⟨length_echo_decoder_local, by decide, by decide, by decide, by decide, by decide,
    by decide, by decide, by decide, by decide, by decide⟩

/-- With storage offset 0 on both sides and one score buffer passed to both calls, the
stale score cell of an empty path separates the calls: the decoder `blank_decoder`
decodes every element to the empty sequence, the batch call leaves `th_scores[0][1]` at
its old bits 2 and the call on the second sequence alone leaves `th_scores[0][0]` at its
old bits 1. -/
theorem ctc_beam_decode_stale_scores_differ :
    ElementLocal blank_decoder ∧
    (ctc_beam_decode false blank_decoder DecodeType.CTC probs_pair seq_len_pair
        (zero_output 1) ramp_scores zero_out_len).succeeded = true ∧
    (ctc_beam_decode false blank_decoder DecodeType.CTC probs_second seq_len_second
        (zero_output 1) ramp_scores zero_out_len).succeeded = true ∧
    (ctc_beam_decode false blank_decoder DecodeType.CTC probs_pair seq_len_pair
        (zero_output 1) ramp_scores zero_out_len).bufs.th_out_len 0 1 = 0 ∧
    (ctc_beam_decode false blank_decoder DecodeType.CTC probs_second seq_len_second
        (zero_output 1) ramp_scores zero_out_len).bufs.th_out_len 0 0 = 0 ∧
    (ctc_beam_decode false blank_decoder DecodeType.CTC probs_pair seq_len_pair
        (zero_output 1) ramp_scores zero_out_len).bufs.th_scores 0 1 = ⟨2⟩ ∧
    (ctc_beam_decode false blank_decoder DecodeType.CTC probs_second seq_len_second
        (zero_output 1) ramp_scores zero_out_len).bufs.th_scores 0 0 = ⟨1⟩ := by
  refine ⟨blank_decoder_local, by decide, by decide, by decide, by decide, by decide,
    by decide⟩

end pytorch
